import Mathlib

/-!
Shallow embedding of `src/smugmug_scraper.py` (a Python 2 script).

Python values are modelled by `PyVal`; dictionaries are association lists kept
in insertion order (every dictionary key appearing in this program is a
string).  Functions that can raise are modelled with `Except PyErr`.  Network
and filesystem effects (`urllib.urlopen`, `urllib.urlretrieve`, `os.makedirs`)
are outside the model; the pure computations of the script (HTML scanning,
request-URL building, image-URL synthesis, album-name sanitisation) are
translated faithfully from the source.
-/

inductive PyVal where
  | str (s : String)
  | int (n : Int)
  | bool (b : Bool)
  | none
  | list (xs : List PyVal)
  | dict (d : List (String × PyVal))

inductive PyErr where
  | typeError (msg : String)
  | valueError (msg : String)
  | keyError (k : String)
  | indexError (msg : String)
  | attributeError (msg : String)
deriving DecidableEq, Repr

/-- Lookup in a Python dict (association list, first matching key). -/
def dictGet : List (String × PyVal) → String → Option PyVal
  | [], _ => Option.none
  | (k, v) :: ds, key => if k = key then some v else dictGet ds key

/-- Python dict item assignment `d[key] = val`: replace in place, else append. -/
def dictSet : List (String × PyVal) → String → PyVal → List (String × PyVal)
  | [], key, val => [(key, val)]
  | (k, v) :: ds, key, val =>
    if k = key then (key, val) :: ds else (k, v) :: dictSet ds key val

/-- Python `key in d` for a dict. -/
def containsKey (d : List (String × PyVal)) (k : String) : Bool :=
  (dictGet d k).isSome

/-- Python truthiness (`bool(v)`): empty containers, empty strings, zero,
`False` and `None` are falsy. -/
def pyTruthy : PyVal → Bool
  | .str s => !(s == "")
  | .int n => !(n == 0)
  | .bool b => b
  | .none => false
  | .list xs => !xs.isEmpty
  | .dict d => !d.isEmpty

/-- Decimal digits of a natural number, accumulator style.  The fuel argument
(`n + 1` at the top call) always suffices, since a number has at most `n + 1`
decimal digits; the fuel only makes the recursion structural. -/
def natDigitsFuel : Nat → Nat → List Char → List Char
  | 0, _, acc => acc
  | fuel + 1, n, acc =>
    if n < 10 then Char.ofNat (48 + n) :: acc
    else natDigitsFuel fuel (n / 10) (Char.ofNat (48 + n % 10) :: acc)

def natToStr (n : Nat) : String :=
  String.mk (natDigitsFuel (n + 1) n [])

/-- Python `str` of an integer. -/
def intToStr (n : Int) : String :=
  if n < 0 then String.mk ('-' :: natDigitsFuel (n.natAbs + 1) n.natAbs [])
  else natToStr n.natAbs

/-- A single-quote character, used by the Python `repr` of strings. -/
def pyQuote : String := String.mk [Char.ofNat 39]

mutual

/-- Python 2 `str(v)` restricted to the values this program formats: strings
render as themselves, containers render through `pyRepr`. -/
def pyStr : PyVal → String
  | .str s => s
  | .int n => intToStr n
  | .bool b => if b then "True" else "False"
  | .none => "None"
  | .list xs => "[" ++ pyReprList xs ++ "]"
  | .dict d => "\x7b" ++ pyReprDict d ++ "\x7d"

/-- Python 2 `repr(v)` (simplified: string escapes and the `u` prefix of
unicode strings are not modelled; only error-message text depends on this). -/
def pyRepr : PyVal → String
  | .str s => pyQuote ++ s ++ pyQuote
  | .int n => intToStr n
  | .bool b => if b then "True" else "False"
  | .none => "None"
  | .list xs => "[" ++ pyReprList xs ++ "]"
  | .dict d => "\x7b" ++ pyReprDict d ++ "\x7d"

def pyReprList : List PyVal → String
  | [] => ""
  | [x] => pyRepr x
  | x :: y :: xs => pyRepr x ++ ", " ++ pyReprList (y :: xs)

def pyReprDict : List (String × PyVal) → String
  | [] => ""
  | [(k, v)] => pyQuote ++ k ++ pyQuote ++ ": " ++ pyRepr v
  | (k, v) :: p :: ds => pyQuote ++ k ++ pyQuote ++ ": " ++ pyRepr v ++ ", " ++ pyReprDict (p :: ds)

end

/-- Python subscription `v[k]` with a string key. -/
def pyGetItem (v : PyVal) (k : String) : Except PyErr PyVal :=
  match v with
  | .dict d =>
    match dictGet d k with
    | some x => .ok x
    | Option.none => .error (.keyError k)
  | _ => .error (.typeError "object is not subscriptable")

/-- Python subscription `v[i]` with an integer index (only the non-negative
indices used by the program). -/
def pyIndexNat (v : PyVal) (i : Nat) : Except PyErr PyVal :=
  match v with
  | .list xs =>
    match xs.get? i with
    | some x => .ok x
    | Option.none => .error (.indexError "list index out of range")
  | .dict _ => .error (.keyError (natToStr i))
  | _ => .error (.typeError "object is not subscriptable")

/-! ## get_album_name (src/smugmug_scraper.py lines 188-207)

The Python regex character class (a raw string in the source) is
`[\/\*\?:"<>]+`.  Inside a character
class, `\/`, `\*` and `\?` denote the literal characters `/`, `*` and `?`;
no escaped backslash (`\\`) appears, so the class does NOT contain the
backslash character, despite the adjacent source comment about reserved
folder-name characters. -/

def isReservedChar (c : Char) : Bool :=
  c == '/' || c == '*' || c == '?' || c == ':' || c == '"' || c == '<' || c == '>'

/-- `re.split(pattern+, s)`: split on maximal runs of separator characters
(empty pieces appear at the boundaries, as in Python). -/
def splitRuns (p : Char → Bool) : List Char → List (List Char)
  | [] => [[]]
  | c :: cs =>
    if p c then
      match cs with
      | [] => [[], []]
      | c' :: cs' =>
        if p c' then splitRuns p (c' :: cs')
        else [] :: splitRuns p (c' :: cs')
    else
      match splitRuns p cs with
      | [] => [[c]]
      | r :: rs => (c :: r) :: rs

/-- `get_album_name`: extract `Albums[0].Title` and join the pieces of
`re.split` on that character class (the two `print` calls are side effects
outside the model). -/
def get_album_name (album_data : PyVal) : Except PyErr PyVal :=
  match album_data with
  | .dict _ => do
    let albums ← pyGetItem album_data "Albums"
    let a0 ← pyIndexNat albums 0
    let t ← pyGetItem a0 "Title"
    match t with
    | .str s => .ok (.str (String.mk (List.flatten (splitRuns isReservedChar s.data))))
    | _ => .error (.typeError "expected string or buffer")
  | _ => .error (.typeError "Type of album_data is not a dictionary.")

/-- C1: the claim says every character in the set backslash / * ? : " < > is
removed from `Albums[0].Title`.  The code removes only / * ? : " < > and keeps
the backslash: evaluating `get_album_name` on a title containing a backslash
and a colon removes the colon but keeps the backslash. -/
theorem get_album_name_keeps_backslash :
    get_album_name (.dict [("Albums", .list [.dict [("Title", .str "a\\b:c*<d>?e")]])])
      = .ok (.str "a\\bcde") := rfl

/-! ## urllib.urlencode / urllib.quote_plus (Python 2 stdlib, modelled)

`urlencode` renders each pair as `quote_plus(str(k)) + "=" + quote_plus(str(v))`
and joins the pairs with `&`.  `quote_plus` keeps letters, digits and `_.-`,
turns a space into `+`, and renders any other character as `%XX` with
uppercase hex (modelled for the byte-sized characters of this program). -/

def isSafeChar (c : Char) : Bool :=
  c.isAlphanum || c == '_' || c == '.' || c == '-'

def toHexDigit (n : Nat) : Char :=
  if n < 10 then Char.ofNat (48 + n) else Char.ofNat (55 + n)

def encChar (c : Char) : List Char :=
  if isSafeChar c then [c]
  else if c == ' ' then ['+']
  else ['%', toHexDigit (c.toNat % 256 / 16), toHexDigit (c.toNat % 256 % 16)]

def quotePlusChars : List Char → List Char
  | [] => []
  | c :: cs => encChar c ++ quotePlusChars cs

def encPair (p : String × PyVal) : List Char :=
  quotePlusChars p.1.data ++ '=' :: quotePlusChars (pyStr p.2).data

def joinSep (sep : Char) : List (List Char) → List Char
  | [] => []
  | [x] => x
  | x :: y :: xs => x ++ sep :: joinSep sep (y :: xs)

def urlencode (params : List (String × PyVal)) : List Char :=
  joinSep '&' (params.map encPair)

/-! ## build_request_url (src/smugmug_scraper.py lines 72-93)

The source assigns into `params = gallery_config["galleryRequestData"]`, which
in Python is an alias of the dict stored inside `gallery_config`; the model
makes that mutation explicit by returning the updated `gallery_config`
alongside the URL. -/

/-- `[x["url"] for x in breadcrumbs if x["url"]]`: evaluate `x["url"]` for each
record in order (raising on a missing key) and keep the truthy values. -/
def collectTruthyUrls : List PyVal → Except PyErr (List PyVal)
  | [] => .ok []
  | x :: xs => do
    let u ← pyGetItem x "url"
    let rest ← collectTruthyUrls xs
    .ok (if pyTruthy u then u :: rest else rest)

def build_request_url (gallery_config : PyVal) (size : PyVal := .int 0)
    (sm_api_base : String := "/services/api/json/1.4.0/")
    (method : String := "rpc.gallery.getalbum") :
    Except PyErr (String × PyVal) :=
  match gallery_config with
  | .dict d =>
    if containsKey d "breadcrumbs" && containsKey d "galleryRequestData" then do
      let bc ← pyGetItem gallery_config "breadcrumbs"
      let urls ←
        match bc with
        | .list xs => collectTruthyUrls xs
        | _ => .error (.typeError "object is not iterable")
      let base ←
        match urls with
        | u :: _ => Except.ok u
        | [] => .error (.indexError "list index out of range")
      let baseS ←
        match base with
        | .str s => Except.ok s
        | _ => .error (.typeError "cannot concatenate non-string base url")
      let params ← pyGetItem gallery_config "galleryRequestData"
      let pd ←
        match params with
        | .dict pd => Except.ok pd
        | _ => .error (.typeError "object does not support item assignment")
      let pd := dictSet pd "method" (.str method)
      let pd := dictSet pd "returnModelList" (.bool true)
      let pd := dictSet pd "PageSize" size
      let query := urlencode pd
      .ok (baseS ++ sm_api_base ++ "?" ++ String.mk query,
           .dict (dictSet d "galleryRequestData" (.dict pd)))
    else .error (.valueError "gallery_config missing fields")
  | _ => .error (.typeError "Type of gallery_config is not a dictionary.")

/-! ## request_image_data (src/smugmug_scraper.py lines 96-124)

Only the URL-building part of `request_image_data` (its lines 107-113) is in
the model; the subsequent `urllib.urlopen` fetch and JSON decode of the
response are network effects outside it. -/

def request_image_data_url (gallery_config album_data : PyVal) :
    Except PyErr (String × PyVal) :=
  match album_data with
  | .dict ad =>
    if containsKey ad "Pagination" then do
      let pg ← pyGetItem album_data "Pagination"
      let total ← pyGetItem pg "TotalItems"
      build_request_url gallery_config total
    else .error (.valueError "album_data missing fields")
  | _ => .error (.typeError "Type of album_data is not a dictionary.")

/-! ## get_gallery_config_from_html (src/smugmug_scraper.py lines 14-42)

The compiled pattern (a raw string in the source) is
`.*?galleryConfig\s*=\s*({.*?})\s*;`, applied with
`.search` to each line of `html.split('\n')` that contains the substring
`galleryConfig`.  With the leading lazy `.*?`, `search` tries the occurrences
of `galleryConfig` from left to right; after the literal it skips whitespace,
requires `=`, skips whitespace, requires an opening brace, and then the lazy
group body extends up to the FIRST closing brace that is followed by optional
whitespace and a semicolon.  When `search` fails it returns `None`, and the
source then calls `.group(1)` on it, which raises `AttributeError`. -/

def pyIsSpace (c : Char) : Bool :=
  c == ' ' || c == '\t' || c == '\n' || c == '\r' || c == '\x0b' || c == '\x0c'

/-- Python `s.split(sep)` for a one-character separator (`"".split` is `[""]`). -/
def pySplitChar (sep : Char) : List Char → List (List Char)
  | [] => [[]]
  | c :: cs =>
    if c = sep then [] :: pySplitChar sep cs
    else
      match pySplitChar sep cs with
      | [] => [[c]]
      | r :: rs => (c :: r) :: rs

def markerChars : List Char := "galleryConfig".data

/-- Python substring test `needle in hay` on lists of characters. -/
def isSubstring (needle : List Char) : List Char → Bool
  | [] => needle.isEmpty
  | c :: cs => needle.isPrefixOf (c :: cs) || isSubstring needle cs

/-- Does whitespace-star-then-semicolon match at the front of the input (the `\s*;` tail of the
pattern, checked after a candidate closing brace)? -/
def wsThenSemi : List Char → Bool
  | [] => false
  | c :: cs => if c = ';' then true else if pyIsSpace c then wsThenSemi cs else false

/-- The lazy group body `.*?` of `({.*?})\s*;`: the characters up to (and
excluding) the first closing brace that is followed by `ws* ';'`. -/
def grabBody : List Char → Option (List Char)
  | [] => Option.none
  | c :: cs =>
    if c = '}' && wsThenSemi cs then some []
    else (grabBody cs).map (fun b => c :: b)

/-- Match `\s*=\s*({.*?})\s*;` directly after an occurrence of the literal
`galleryConfig`, returning the text of group 1 (braces included). -/
def tryMatchAfter (rest : List Char) : Option (List Char) :=
  match rest.dropWhile pyIsSpace with
  | '=' :: r2 =>
    match r2.dropWhile pyIsSpace with
    | '{' :: r4 => (grabBody r4).map (fun b => '{' :: (b ++ ['}']))
    | _ => Option.none
  | _ => Option.none

/-- `re.search` of the gallery pattern on one line: try each occurrence of
`galleryConfig` from left to right (regex backtracking over the leading
`.*?`), returning the first successful group-1 text. -/
def searchGalleryConfig : List Char → Option (List Char)
  | [] => Option.none
  | c :: cs =>
    if markerChars.isPrefixOf (c :: cs) then
      match tryMatchAfter ((c :: cs).drop markerChars.length) with
      | some g => some g
      | Option.none => searchGalleryConfig cs
    else searchGalleryConfig cs

/-! ### json.loads (Python 2 stdlib, modelled)

A recursive-descent parser for the JSON subset this program can meet: objects,
arrays, strings (with the single-character escapes; `\uXXXX` is outside the
model), integer numbers (floats are outside the model), `true`, `false`,
`null`.  Python 2 `json.loads` raises `ValueError` on any parse failure, which
is all the embedding relies on: the parser returns `Option` and
`pyJsonLoads` turns `none` into a `ValueError`. -/

def jIsWs (c : Char) : Bool :=
  c == ' ' || c == '\t' || c == '\n' || c == '\r'

def jEscape (c : Char) : Option Char :=
  if c = '"' then some '"'
  else if c = '\\' then some '\\'
  else if c = '/' then some '/'
  else if c = 'n' then some '\n'
  else if c = 't' then some '\t'
  else if c = 'r' then some '\r'
  else if c = 'b' then some '\x08'
  else if c = 'f' then some '\x0c'
  else Option.none

def jString : List Char → Option (List Char × List Char)
  | [] => Option.none
  | c :: cs =>
    if c = '"' then some ([], cs)
    else if c = '\\' then
      match cs with
      | [] => Option.none
      | e :: cs' =>
        match jEscape e with
        | some ec => (jString cs').map (fun p => (ec :: p.1, p.2))
        | Option.none => Option.none
    else (jString cs).map (fun p => (c :: p.1, p.2))

/-- Parse a (non-negative) run of digits as a natural number. -/
def jDigits : List Char → Nat → Option (Nat × List Char)
  | [], acc => some (acc, [])
  | c :: cs, acc =>
    if c.isDigit then jDigits cs (acc * 10 + (c.toNat - 48))
    else some (acc, c :: cs)

def jNumber (cs : List Char) : Option (PyVal × List Char) :=
  match cs with
  | '-' :: rest =>
    match rest with
    | c :: _ =>
      if c.isDigit then
        (jDigits rest 0).bind (fun p =>
          match p.2 with
          | '.' :: _ => Option.none
          | 'e' :: _ => Option.none
          | 'E' :: _ => Option.none
          | r => some (.int (-(p.1 : Int)), r))
      else Option.none
    | [] => Option.none
  | c :: _ =>
    if c.isDigit then
      (jDigits cs 0).bind (fun p =>
        match p.2 with
        | '.' :: _ => Option.none
        | 'e' :: _ => Option.none
        | 'E' :: _ => Option.none
        | r => some (.int (p.1 : Int), r))
    else Option.none
  | [] => Option.none

mutual

def jValue : Nat → List Char → Option (PyVal × List Char)
  | 0, _ => Option.none
  | fuel + 1, cs =>
    match cs.dropWhile jIsWs with
    | [] => Option.none
    | c :: rest =>
      if c = '{' then
        match rest.dropWhile jIsWs with
        | '}' :: r => some (.dict [], r)
        | _ => jMembers fuel [] rest
      else if c = '[' then
        match rest.dropWhile jIsWs with
        | ']' :: r => some (.list [], r)
        | _ => jItems fuel [] rest
      else if c = '"' then
        (jString rest).map (fun p => (.str (String.mk p.1), p.2))
      else if "true".data.isPrefixOf (c :: rest) then
        some (.bool true, (c :: rest).drop 4)
      else if "false".data.isPrefixOf (c :: rest) then
        some (.bool false, (c :: rest).drop 5)
      else if "null".data.isPrefixOf (c :: rest) then
        some (.none, (c :: rest).drop 4)
      else jNumber (c :: rest)

def jMembers : Nat → List (String × PyVal) → List Char → Option (PyVal × List Char)
  | 0, _, _ => Option.none
  | fuel + 1, acc, cs =>
    match cs.dropWhile jIsWs with
    | '"' :: r =>
      (jString r).bind (fun kp =>
        match kp.2.dropWhile jIsWs with
        | ':' :: r2 =>
          (jValue fuel r2).bind (fun vp =>
            match vp.2.dropWhile jIsWs with
            | ',' :: r3 => jMembers fuel (dictSet acc (String.mk kp.1) vp.1) r3
            | '}' :: r3 => some (.dict (dictSet acc (String.mk kp.1) vp.1), r3)
            | _ => Option.none)
        | _ => Option.none)
    | _ => Option.none

def jItems : Nat → List PyVal → List Char → Option (PyVal × List Char)
  | 0, _, _ => Option.none
  | fuel + 1, acc, cs =>
    (jValue fuel cs).bind (fun vp =>
      match vp.2.dropWhile jIsWs with
      | ',' :: r => jItems fuel (acc ++ [vp.1]) r
      | ']' :: r => some (.list (acc ++ [vp.1]), r)
      | _ => Option.none)

end

/-- Python 2 `json.loads`: parse one JSON document, allow trailing whitespace,
fail with `ValueError` otherwise. -/
def pyJsonLoads (cs : List Char) : Except PyErr PyVal :=
  match jValue (cs.length + 1) cs with
  | some (v, rest) =>
    if rest.dropWhile jIsWs = [] then .ok v
    else .error (.valueError "Extra data")
  | Option.none => .error (.valueError "No JSON object could be decoded")

def noneGroupMsg : String :=
  pyQuote ++ "NoneType" ++ pyQuote ++ " object has no attribute " ++ pyQuote ++ "group" ++ pyQuote

/-- The per-line loop of `get_gallery_config_from_html`: the first line that
contains the substring `galleryConfig` is searched; a failed search yields the
`AttributeError` of `None.group(1)`; a successful one is parsed as JSON and
returned.  If no line contains the marker, a `ValueError` is raised. -/
def goLines : List (List Char) → Except PyErr PyVal
  | [] => .error (.valueError "HTML did not include any gallery configuration.")
  | l :: ls =>
    if isSubstring markerChars l then
      match searchGalleryConfig l with
      | Option.none => .error (.attributeError noneGroupMsg)
      | some g => pyJsonLoads g
    else goLines ls

def get_gallery_config_from_html (html : PyVal) : Except PyErr PyVal :=
  match html with
  | .str s => goLines (pySplitChar '\n' s.data)
  | _ => .error (.typeError "Type of html is not a string.")

/-! ## get_image_url (src/smugmug_scraper.py lines 127-172) -/

/-- The size-selection part of `get_image_url` (lines 144-157).  The falsy
check `if not sizes` comes first, so `None`, the empty string and the empty
list all select every key of `Sizes` (Python 2 `dict.keys()` is a list, in
insertion order of the model).  A single truthy string label must be a key of
`Sizes` or a `ValueError` is raised; a list is filtered to the labels present.
In the list branch the comprehension evaluates `image_data["Sizes"]` for each
element; a non-empty list therefore evaluates it at least once (an empty list
never reaches this branch, being falsy). -/
def selectSizes (image_data : PyVal) (sizes : PyVal) : Except PyErr (List PyVal) :=
  if !pyTruthy sizes then do
    let szs ← pyGetItem image_data "Sizes"
    match szs with
    | .dict sd => .ok (sd.map (fun p => .str p.1))
    | _ => .error (.attributeError "object has no attribute keys")
  else
    match sizes with
    | .str s => do
      let szs ← pyGetItem image_data "Sizes"
      match szs with
      | .dict sd =>
        if containsKey sd s then .ok [.str s]
        else .error (.valueError ("Size " ++ s ++ " not in " ++ pyStr szs))
      | _ => .error (.typeError "argument is not iterable")
    | .list ls => do
      let szs ← pyGetItem image_data "Sizes"
      match szs with
      | .dict sd =>
        .ok (ls.filter (fun x => match x with | .str s => containsKey sd s | _ => false))
      | _ => .error (.typeError "argument is not iterable")
    | _ => .error (.typeError ("size wasn" ++ pyQuote ++ "t an expected type"))

/-- The format string of line 164:
`"{BaseUrl}i-{ImageKey}/1/{size}/{URLFilename}-{size}.{ext}"`. -/
def formatImageUrl (baseUrl imageKey size urlFilename ext : PyVal) : String :=
  pyStr baseUrl ++ "i-" ++ pyStr imageKey ++ "/1/" ++ pyStr size ++ "/" ++
    pyStr urlFilename ++ "-" ++ pyStr size ++ "." ++ pyStr ext

/-- The URL-generation loop of lines 162-171: for each selected size label,
look the label up in `image_data["Sizes"]`, take its `ext`, and render the
format string. -/
def genUrls (image_data : PyVal) : List PyVal → Except PyErr (List PyVal)
  | [] => .ok []
  | s :: rest => do
    let b ← pyGetItem image_data "BaseUrl"
    let ik ← pyGetItem image_data "ImageKey"
    let fn ← pyGetItem image_data "URLFilename"
    let szs ← pyGetItem image_data "Sizes"
    let entry ←
      match s with
      | .str k => pyGetItem szs k
      | _ => .error (.keyError (pyStr s))
    let ext ← pyGetItem entry "ext"
    let tail ← genUrls image_data rest
    .ok (.str (formatImageUrl b ik s fn ext) :: tail)

/-- `get_image_url` (the message of line 142 misspells image_data as
iamge_data in the source; kept verbatim).  Line 172 returns `urls[0]` when
exactly one URL was produced, and the list itself otherwise. -/
def get_image_url (image_data : PyVal) (sizes : PyVal := .none) : Except PyErr PyVal :=
  match image_data with
  | .dict d =>
    if containsKey d "BaseUrl" && containsKey d "ImageKey" && containsKey d "URLFilename" then do
      let sel ← selectSizes image_data sizes
      let urls ← genUrls image_data sel
      match urls with
      | [u] => .ok u
      | _ => .ok (.list urls)
    else .error (.valueError "iamge_data missing fields")
  | _ => .error (.typeError "Type of image_data is not a dictionary.")

/-! ## Spec-side observers used in theorem statements -/

/-- Python `len(v)` where defined. -/
def pyLen : PyVal → Option Nat
  | .str s => some s.length
  | .list xs => some xs.length
  | .dict d => some d.length
  | _ => Option.none

def isValueErrorResult (r : Except PyErr PyVal) : Bool :=
  match r with
  | .error (.valueError _) => true
  | _ => false

def isStrPy : PyVal → Bool
  | .str _ => true
  | _ => false

/-- The URL the resolver synthesizes for size label `s` of an image record
(observer over the record fields, used to state the `get_image_url`
theorems). -/
def urlForLabel (d : List (String × PyVal)) (s : String) : String :=
  formatImageUrl ((dictGet d "BaseUrl").getD .none) ((dictGet d "ImageKey").getD .none)
    (.str s) ((dictGet d "URLFilename").getD .none)
    (match dictGet d "Sizes" with
     | some (.dict sd) =>
       match dictGet sd s with
       | some (.dict ed) => (dictGet ed "ext").getD .none
       | _ => .none
     | _ => .none)

/-! ## Generic helper lemmas -/

theorem ebind_ok {ε α β : Type} (a : α) (f : α → Except ε β) :
    (Except.ok a >>= f) = f a := rfl

theorem ebind_error {ε α β : Type} (e : ε) (f : α → Except ε β) :
    ((Except.error e : Except ε α) >>= f) = Except.error e := rfl

theorem dictGet_dictSet_self (d : List (String × PyVal)) (k : String) (v : PyVal) :
    dictGet (dictSet d k v) k = some v := by
  induction d with
  | nil => simp [dictGet, dictSet]
  | cons p ds ih =>
    by_cases h : p.1 = k
    · simp [dictSet, h, dictGet]
    · simp [dictSet, h, dictGet, ih]

theorem dictGet_dictSet_ne (d : List (String × PyVal)) (k k' : String) (v : PyVal)
    (h : k' ≠ k) : dictGet (dictSet d k v) k' = dictGet d k' := by
  have h' : ¬ k = k' := fun hh => h hh.symm
  induction d with
  | nil => simp [dictGet, dictSet, h']
  | cons p ds ih =>
    obtain ⟨p1, p2⟩ := p
    by_cases hp : p1 = k
    · subst hp
      simp [dictSet, dictGet, h']
    · simp [dictSet, dictGet, hp, ih]

theorem mem_dictSet (d : List (String × PyVal)) (k : String) (v : PyVal)
    (p : String × PyVal) (hp : p ∈ dictSet d k v) : p = (k, v) ∨ p ∈ d := by
  induction d with
  | nil => simp [dictSet] at hp; simp [hp]
  | cons q ds ih =>
    by_cases h : q.1 = k
    · simp [dictSet, h] at hp
      rcases hp with hp | hp
      · exact Or.inl hp
      · exact Or.inr (List.mem_cons_of_mem _ hp)
    · simp [dictSet, h] at hp
      rcases hp with hp | hp
      · exact Or.inr (by simp [hp])
      · rcases ih hp with hh | hh
        · exact Or.inl hh
        · exact Or.inr (List.mem_cons_of_mem _ hh)

theorem dictGet_mem (d : List (String × PyVal)) (k : String) (v : PyVal)
    (h : dictGet d k = some v) : (k, v) ∈ d := by
  induction d with
  | nil => simp [dictGet] at h
  | cons p ds ih =>
    obtain ⟨p1, p2⟩ := p
    by_cases hp : p1 = k
    · simp [dictGet, hp] at h
      subst hp h
      exact List.mem_cons_self _ _
    · simp [dictGet, hp] at h
      exact List.mem_cons_of_mem _ (ih h)

theorem dictGet_of_mem_nodup (d : List (String × PyVal)) (k : String) (v : PyVal)
    (hmem : (k, v) ∈ d) (hnd : (d.map Prod.fst).Nodup) : dictGet d k = some v := by
  induction d with
  | nil => simp at hmem
  | cons p ds ih =>
    obtain ⟨p1, p2⟩ := p
    rw [List.map_cons] at hnd
    have htail := List.Nodup.of_cons hnd
    have hnotmem : p1 ∉ ds.map Prod.fst := (List.nodup_cons.mp hnd).1
    rcases List.mem_cons.mp hmem with h | h
    · obtain ⟨h1, h2⟩ := Prod.mk.injEq k v p1 p2 ▸ h
      subst h1 h2
      simp [dictGet]
    · have hk : ¬ p1 = k := by
        intro hh
        subst hh
        exact hnotmem (List.mem_map_of_mem Prod.fst h)
      simp [dictGet, hk, ih h htail]

/-! ## C9 and C10 -/

theorem collectTruthyUrls_all_falsy (bs : List PyVal)
    (hall : ∀ x ∈ bs, ∃ xd v, x = .dict xd ∧ dictGet xd "url" = some v ∧ pyTruthy v = false) :
    collectTruthyUrls bs = .ok [] := by
  induction bs with
  | nil => rfl
  | cons x xs ih =>
    obtain ⟨xd, v, hx, hurl, hfal⟩ := hall x (by simp)
    subst hx
    simp [collectTruthyUrls, pyGetItem, hurl, ebind_ok,
      ih (fun y hy => hall y (by simp [hy])), hfal]

/-- C9: for a gallery_config dict with the two required keys whose breadcrumbs
records all carry a falsy `url` field (including the empty breadcrumbs list),
`build_request_url` raises IndexError from `[...][0]` on the empty
comprehension result, not the documented TypeError or ValueError. -/
theorem build_request_url_all_blank_breadcrumbs_indexError
    (d : List (String × PyVal)) (bs : List PyVal) (size : PyVal)
    (hbc : dictGet d "breadcrumbs" = some (.list bs))
    (hgrd : containsKey d "galleryRequestData" = true)
    (hall : ∀ x ∈ bs, ∃ xd v, x = .dict xd ∧ dictGet xd "url" = some v ∧ pyTruthy v = false) :
    build_request_url (.dict d) size = .error (.indexError "list index out of range") := by
  obtain ⟨g, hg⟩ := Option.isSome_iff_exists.mp hgrd
  simp [build_request_url, containsKey, hbc, hg, pyGetItem, ebind_ok,
    collectTruthyUrls_all_falsy bs hall, ebind_error]

theorem build_request_url_all_blank_breadcrumbs_indexError_witness :
    build_request_url
      (.dict [("breadcrumbs", .list [.dict [("url", .str "")]]), ("galleryRequestData", .dict [])])
      (.int 0)
      = .error (.indexError "list index out of range") :=
  build_request_url_all_blank_breadcrumbs_indexError _ _ _ rfl rfl
    (by
      intro x hx
      simp at hx
      exact ⟨[("url", .str "")], .str "", hx, rfl, rfl⟩)

/-- C10: get_image_url validates BaseUrl, ImageKey and URLFilename but never
Sizes: on a dict with the three fields but no Sizes key, every selector form
(None, a string, or a list) ends in an uncaught KeyError for Sizes, not the
ValueError used for the other missing fields. -/
theorem get_image_url_missing_sizes_keyError
    (d : List (String × PyVal))
    (hb : containsKey d "BaseUrl" = true) (hk : containsKey d "ImageKey" = true)
    (hf : containsKey d "URLFilename" = true) (hs : dictGet d "Sizes" = Option.none) :
    ∀ sel : PyVal, (sel = .none ∨ (∃ s, sel = .str s) ∨ (∃ ls, sel = .list ls)) →
      get_image_url (.dict d) sel = .error (.keyError "Sizes") := by
  intro sel hsel
  have hsel' : selectSizes (.dict d) sel = .error (.keyError "Sizes") := by
    rcases hsel with h | ⟨s, h⟩ | ⟨ls, h⟩ <;> subst h
    · simp [selectSizes, pyTruthy, pyGetItem, hs, ebind_error]
    · by_cases he : s = ""
      · simp [selectSizes, pyTruthy, he, pyGetItem, hs, ebind_error]
      · simp [selectSizes, pyTruthy, he, pyGetItem, hs, ebind_error]
    · by_cases he : ls = []
      · simp [selectSizes, pyTruthy, he, pyGetItem, hs, ebind_error]
      · simp [selectSizes, pyTruthy, List.isEmpty_iff, he, pyGetItem, hs, ebind_error]
  simp [get_image_url, hb, hk, hf, hsel', ebind_error]

theorem get_image_url_missing_sizes_keyError_witness :
    get_image_url
      (.dict [("BaseUrl", .str "b"), ("ImageKey", .str "k"), ("URLFilename", .str "f")])
      (.list [.str "L"])
      = .error (.keyError "Sizes") :=
  get_image_url_missing_sizes_keyError
    [("BaseUrl", .str "b"), ("ImageKey", .str "k"), ("URLFilename", .str "f")]
    rfl rfl rfl rfl (.list [.str "L"]) (Or.inr (Or.inr ⟨[.str "L"], rfl⟩))

/-! ## C5, C6, C7 -/

/-- A well-formed `Sizes` entry: a dict that has an `ext` field. -/
def extRecordOk : PyVal → Bool
  | .dict ed => (dictGet ed "ext").isSome
  | _ => false

theorem containsKey_of_mem_keys (sd : List (String × PyVal)) (k : String)
    (h : k ∈ sd.map Prod.fst) : containsKey sd k = true := by
  induction sd with
  | nil => simp at h
  | cons p ds ih =>
    obtain ⟨p1, p2⟩ := p
    rw [List.map_cons] at h
    by_cases hp : p1 = k
    · simp [containsKey, dictGet, hp]
    · rcases List.mem_cons.mp h with h | h
      · exact absurd h.symm hp
      · simpa [containsKey, dictGet, hp] using ih h

theorem sizes_lookup_wf (sd : List (String × PyVal))
    (hwf : ∀ p ∈ sd, extRecordOk p.2 = true) (k : String)
    (hk : containsKey sd k = true) :
    ∃ ed e, dictGet sd k = some (.dict ed) ∧ dictGet ed "ext" = some e := by
  obtain ⟨v, hv⟩ := Option.isSome_iff_exists.mp hk
  have h := hwf (k, v) (dictGet_mem _ _ _ hv)
  cases v <;> simp [extRecordOk] at h
  rename_i ed
  obtain ⟨e, he⟩ := Option.isSome_iff_exists.mp h
  exact ⟨ed, e, hv, he⟩

theorem genUrls_labels (d : List (String × PyVal)) (sd : List (String × PyVal))
    (b ik fn : PyVal)
    (hb : dictGet d "BaseUrl" = some b) (hik : dictGet d "ImageKey" = some ik)
    (hfn : dictGet d "URLFilename" = some fn)
    (hsz : dictGet d "Sizes" = some (.dict sd))
    (ks : List String)
    (hks : ∀ k ∈ ks, ∃ ed e, dictGet sd k = some (.dict ed) ∧ dictGet ed "ext" = some e) :
    genUrls (.dict d) (ks.map PyVal.str)
      = .ok (ks.map (fun k => PyVal.str (urlForLabel d k))) := by
  induction ks with
  | nil => rfl
  | cons k ks ih =>
    obtain ⟨ed, e, hed, he⟩ := hks k (by simp)
    have hrest := ih (fun k' hk' => hks k' (by simp [hk']))
    simp [genUrls, pyGetItem, hb, hik, hfn, hsz, hed, he, ebind_ok, hrest,
      urlForLabel]

/-- C5 (amended): with a falsy size selector (None, empty string, empty list)
a URL is generated for every entry of Sizes, in order; line 172 then returns
the bare URL string when Sizes has exactly one entry, and otherwise a list of
URL strings whose length equals the number of Sizes entries. -/
theorem get_image_url_falsy_selector_all_sizes
    (d sd : List (String × PyVal)) (b ik fn : PyVal) (t : PyVal)
    (hfalsy : pyTruthy t = false)
    (hb : dictGet d "BaseUrl" = some b) (hik : dictGet d "ImageKey" = some ik)
    (hfn : dictGet d "URLFilename" = some fn)
    (hsz : dictGet d "Sizes" = some (.dict sd)) (_hne : sd ≠ [])
    (hwf : ∀ p ∈ sd, extRecordOk p.2 = true) :
    get_image_url (.dict d) t =
      .ok (match (sd.map Prod.fst).map (fun k => PyVal.str (urlForLabel d k)) with
           | [u] => u
           | us => .list us) ∧
    ((sd.map Prod.fst).map (fun k => PyVal.str (urlForLabel d k))).length = sd.length := by
  have hsel : selectSizes (.dict d) t = .ok ((sd.map Prod.fst).map PyVal.str) := by
    simp [selectSizes, hfalsy, pyGetItem, hsz, ebind_ok, List.map_map, Function.comp]
  have hgen := genUrls_labels d sd b ik fn hb hik hfn hsz (sd.map Prod.fst)
    (fun k hk => sizes_lookup_wf sd hwf k (containsKey_of_mem_keys sd k hk))
  constructor
  · simp only [get_image_url, containsKey, hb, hik, hfn, Option.isSome_some,
      Bool.and_self, if_true, hsel, ebind_ok, hgen]
    generalize (List.map (fun k => PyVal.str (urlForLabel d k)) (List.map Prod.fst sd)) = us
    rcases us with _ | ⟨u, _ | ⟨v, vs⟩⟩ <;> rfl
  · simp

theorem get_image_url_falsy_selector_all_sizes_witness :
    get_image_url
      (.dict [("BaseUrl", .str "https://p.smugmug.com/"), ("ImageKey", .str "abc"),
        ("URLFilename", .str "photo"),
        ("Sizes", .dict [("L", .dict [("ext", .str "jpg")]),
                         ("XL", .dict [("ext", .str "png")])])])
      .none
      = .ok (.list [.str "https://p.smugmug.com/i-abc/1/L/photo-L.jpg",
                    .str "https://p.smugmug.com/i-abc/1/XL/photo-XL.png"]) := by
  have h := get_image_url_falsy_selector_all_sizes
    [("BaseUrl", .str "https://p.smugmug.com/"), ("ImageKey", .str "abc"),
      ("URLFilename", .str "photo"),
      ("Sizes", .dict [("L", .dict [("ext", .str "jpg")]),
                       ("XL", .dict [("ext", .str "png")])])]
    [("L", .dict [("ext", .str "jpg")]), ("XL", .dict [("ext", .str "png")])]
    (.str "https://p.smugmug.com/") (.str "abc") (.str "photo") .none
    rfl rfl rfl rfl rfl (by simp) (by decide)
  exact h.1

/-- C5 counterexample: with selector None and a Sizes mapping of exactly one
entry, the claim says a collection of length 1 comes back; the code instead
returns the bare URL string (a 43-character value, not a one-element
collection). -/
theorem get_image_url_singleton_sizes_not_collection :
    get_image_url
      (.dict [("BaseUrl", .str "https://p.smugmug.com/"), ("ImageKey", .str "abc"),
        ("URLFilename", .str "photo"),
        ("Sizes", .dict [("L", .dict [("ext", .str "jpg")])])])
      .none
      = .ok (.str "https://p.smugmug.com/i-abc/1/L/photo-L.jpg") ∧
    isStrPy (.str "https://p.smugmug.com/i-abc/1/L/photo-L.jpg") = true ∧
    pyLen (.str "https://p.smugmug.com/i-abc/1/L/photo-L.jpg") = some 43 := ⟨rfl, rfl, rfl⟩

/-- C6 (amended): for a single NON-EMPTY string label L, get_image_url returns
exactly the one URL `{BaseUrl}i-{ImageKey}/1/{L}/{URLFilename}-{L}.{ext}` when
L is a key of Sizes, and raises ValueError when it is not.  (The empty string
label is falsy and takes the all-sizes branch instead; see the
counterexample.) -/
theorem get_image_url_single_nonempty_label
    (d sd : List (String × PyVal)) (b ik fn : PyVal) (L : String) (hL : L ≠ "")
    (hb : dictGet d "BaseUrl" = some b) (hik : dictGet d "ImageKey" = some ik)
    (hfn : dictGet d "URLFilename" = some fn)
    (hsz : dictGet d "Sizes" = some (.dict sd))
    (hwf : ∀ p ∈ sd, extRecordOk p.2 = true) :
    (containsKey sd L = true →
      get_image_url (.dict d) (.str L) = .ok (.str (urlForLabel d L))) ∧
    (containsKey sd L = false →
      isValueErrorResult (get_image_url (.dict d) (.str L)) = true) := by
  have htr : pyTruthy (.str L) = true := by
    simp [pyTruthy]
    exact hL
  constructor
  · intro hc
    have hsel : selectSizes (.dict d) (.str L) = .ok ([L].map PyVal.str) := by
      simp [selectSizes, htr, pyGetItem, hsz, ebind_ok, hc]
    have hgen := genUrls_labels d sd b ik fn hb hik hfn hsz [L]
      (fun k hk => by
        rw [List.mem_singleton.mp hk]
        exact sizes_lookup_wf sd hwf L hc)
    simp only [List.map_cons, List.map_nil] at hsel hgen
    simp only [get_image_url, containsKey, hb, hik, hfn, Option.isSome_some,
      Bool.and_self, if_true, hsel, ebind_ok, hgen]
  · intro hc
    have hsel : selectSizes (.dict d) (.str L)
        = .error (.valueError ("Size " ++ L ++ " not in " ++ pyStr (.dict sd))) := by
      simp [selectSizes, htr, pyGetItem, hsz, ebind_ok, hc]
    simp [get_image_url, containsKey, hb, hik, hfn, hsel, ebind_error,
      isValueErrorResult]

theorem get_image_url_single_nonempty_label_witness :
    get_image_url
      (.dict [("BaseUrl", .str "https://p.smugmug.com/"), ("ImageKey", .str "abc"),
        ("URLFilename", .str "photo"),
        ("Sizes", .dict [("L", .dict [("ext", .str "jpg")]),
                         ("XL", .dict [("ext", .str "png")])])])
      (.str "XL")
      = .ok (.str "https://p.smugmug.com/i-abc/1/XL/photo-XL.png") ∧
    isValueErrorResult
      (get_image_url
        (.dict [("BaseUrl", .str "https://p.smugmug.com/"), ("ImageKey", .str "abc"),
          ("URLFilename", .str "photo"),
          ("Sizes", .dict [("L", .dict [("ext", .str "jpg")]),
                           ("XL", .dict [("ext", .str "png")])])])
        (.str "nope")) = true := by
  constructor
  · exact (get_image_url_single_nonempty_label
      [("BaseUrl", .str "https://p.smugmug.com/"), ("ImageKey", .str "abc"),
        ("URLFilename", .str "photo"),
        ("Sizes", .dict [("L", .dict [("ext", .str "jpg")]),
                         ("XL", .dict [("ext", .str "png")])])]
      [("L", .dict [("ext", .str "jpg")]), ("XL", .dict [("ext", .str "png")])]
      (.str "https://p.smugmug.com/") (.str "abc") (.str "photo") "XL"
      (by decide) rfl rfl rfl rfl (by decide)).1 rfl
  · exact (get_image_url_single_nonempty_label
      [("BaseUrl", .str "https://p.smugmug.com/"), ("ImageKey", .str "abc"),
        ("URLFilename", .str "photo"),
        ("Sizes", .dict [("L", .dict [("ext", .str "jpg")]),
                         ("XL", .dict [("ext", .str "png")])])]
      [("L", .dict [("ext", .str "jpg")]), ("XL", .dict [("ext", .str "png")])]
      (.str "https://p.smugmug.com/") (.str "abc") (.str "photo") "nope"
      (by decide) rfl rfl rfl rfl (by decide)).2 rfl

/-- C6 counterexample: the empty string is a string label that is not a key of
`Sizes = ("L" : ...)`, so the claim demands a ValueError; the code instead
treats it as falsy, runs the all-sizes branch, and returns the single URL. -/
theorem get_image_url_empty_label_no_valueError :
    get_image_url
      (.dict [("BaseUrl", .str "https://p.smugmug.com/"), ("ImageKey", .str "abc"),
        ("URLFilename", .str "photo"),
        ("Sizes", .dict [("L", .dict [("ext", .str "jpg")])])])
      (.str "")
      = .ok (.str "https://p.smugmug.com/i-abc/1/L/photo-L.jpg") ∧
    isValueErrorResult
      (get_image_url
        (.dict [("BaseUrl", .str "https://p.smugmug.com/"), ("ImageKey", .str "abc"),
          ("URLFilename", .str "photo"),
          ("Sizes", .dict [("L", .dict [("ext", .str "jpg")])])])
        (.str "")) = false := ⟨rfl, rfl⟩

theorem filter_labels_eq (sd : List (String × PyVal)) (ls : List PyVal)
    (hstr : ∀ x ∈ ls, ∃ s, x = PyVal.str s) :
    ls.filter (fun x => match x with | .str s => containsKey sd s | _ => false)
      = (ls.filterMap (fun x => match x with
          | .str s => if containsKey sd s then some s else Option.none
          | _ => Option.none)).map PyVal.str := by
  induction ls with
  | nil => rfl
  | cons x xs ih =>
    obtain ⟨s, hx⟩ := hstr x (by simp)
    subst hx
    have ih' := ih (fun y hy => hstr y (by simp [hy]))
    by_cases hc : containsKey sd s = true
    · simp [List.filter_cons, List.filterMap_cons, hc, ih']
    · simp [List.filter_cons, List.filterMap_cons, hc, ih']

theorem mem_filterMap_labels (sd : List (String × PyVal)) (ls : List PyVal)
    (k : String)
    (hk : k ∈ ls.filterMap (fun x => match x with
        | .str s => if containsKey sd s then some s else Option.none
        | _ => Option.none)) :
    containsKey sd k = true := by
  obtain ⟨x, hx, hfx⟩ := List.mem_filterMap.mp hk
  cases x <;> simp at hfx
  rename_i s
  obtain ⟨hc, hsk⟩ := hfx
  subst hsk
  exact hc

/-- C7: with a non-empty list of string labels, get_image_url raises no error
for absent labels: URLs are produced exactly for the sublist of labels that
are keys of Sizes, in list order (line 172 then returns the single URL bare
when that sublist has exactly one element, the list of URLs otherwise,
possibly empty). -/
theorem get_image_url_list_selector_filters
    (d sd : List (String × PyVal)) (b ik fn : PyVal) (ls : List PyVal)
    (hne : ls ≠ [])
    (hstr : ∀ x ∈ ls, ∃ s, x = PyVal.str s)
    (hb : dictGet d "BaseUrl" = some b) (hik : dictGet d "ImageKey" = some ik)
    (hfn : dictGet d "URLFilename" = some fn)
    (hsz : dictGet d "Sizes" = some (.dict sd))
    (hwf : ∀ p ∈ sd, extRecordOk p.2 = true) :
    get_image_url (.dict d) (.list ls) =
      .ok (match ls.filterMap (fun x => match x with
              | .str s => if containsKey sd s then some s else Option.none
              | _ => Option.none) with
           | [k] => .str (urlForLabel d k)
           | ks => .list (ks.map (fun k => PyVal.str (urlForLabel d k)))) := by
  have htr : pyTruthy (.list ls) = true := by
    cases ls with
    | nil => exact absurd rfl hne
    | cons y ys => rfl
  have hsel : selectSizes (.dict d) (.list ls)
      = .ok ((ls.filterMap (fun x => match x with
          | .str s => if containsKey sd s then some s else Option.none
          | _ => Option.none)).map PyVal.str) := by
    simp only [selectSizes, htr, Bool.not_true, Bool.false_eq_true, if_false]
    simp [pyGetItem, hsz, ebind_ok, filter_labels_eq sd ls hstr]
  have hgen := genUrls_labels d sd b ik fn hb hik hfn hsz
    (ls.filterMap (fun x => match x with
        | .str s => if containsKey sd s then some s else Option.none
        | _ => Option.none))
    (fun k hk => sizes_lookup_wf sd hwf k (mem_filterMap_labels sd ls k hk))
  have h3 : (containsKey d "BaseUrl" && containsKey d "ImageKey"
      && containsKey d "URLFilename") = true := by
    simp [containsKey, hb, hik, hfn]
  simp only [get_image_url, h3, if_true, hsel, ebind_ok, hgen]
  generalize (ls.filterMap (fun x => match x with
      | .str s => if containsKey sd s then some s else Option.none
      | _ => Option.none)) = ks
  rcases ks with _ | ⟨k1, _ | ⟨k2, ks⟩⟩ <;> rfl

theorem get_image_url_list_selector_filters_witness :
    get_image_url
      (.dict [("BaseUrl", .str "https://p.smugmug.com/"), ("ImageKey", .str "abc"),
        ("URLFilename", .str "photo"),
        ("Sizes", .dict [("L", .dict [("ext", .str "jpg")]),
                         ("XL", .dict [("ext", .str "png")])])])
      (.list [.str "nope", .str "XL", .str "missing"])
      = .ok (.str "https://p.smugmug.com/i-abc/1/XL/photo-XL.png") := by
  have h := get_image_url_list_selector_filters
    [("BaseUrl", .str "https://p.smugmug.com/"), ("ImageKey", .str "abc"),
      ("URLFilename", .str "photo"),
      ("Sizes", .dict [("L", .dict [("ext", .str "jpg")]),
                       ("XL", .dict [("ext", .str "png")])])]
    [("L", .dict [("ext", .str "jpg")]), ("XL", .dict [("ext", .str "png")])]
    (.str "https://p.smugmug.com/") (.str "abc") (.str "photo")
    [.str "nope", .str "XL", .str "missing"]
    (by simp)
    (by intro x hx
        simp at hx
        rcases hx with h | h | h <;> exact ⟨_, h⟩)
    rfl rfl rfl rfl (by decide)
  exact h

/-! ## C2 and C8 -/

theorem build_request_url_eq (d : List (String × PyVal)) (bs : List PyVal)
    (u : String) (us : List PyVal) (grd : List (String × PyVal))
    (size : PyVal) (api method : String)
    (hbc : dictGet d "breadcrumbs" = some (.list bs))
    (hgrd : dictGet d "galleryRequestData" = some (.dict grd))
    (hurls : collectTruthyUrls bs = .ok (.str u :: us)) :
    build_request_url (.dict d) size api method =
      .ok (u ++ api ++ "?" ++ String.mk (urlencode
             (dictSet (dictSet (dictSet grd "method" (.str method))
               "returnModelList" (.bool true)) "PageSize" size)),
           .dict (dictSet d "galleryRequestData" (.dict
             (dictSet (dictSet (dictSet grd "method" (.str method))
               "returnModelList" (.bool true)) "PageSize" size)))) := by
  simp [build_request_url, containsKey, hbc, hgrd, pyGetItem, hurls, ebind_ok]

/-- C2 (amended): build_request_url does NOT work on a copy: it assigns into
the `galleryRequestData` dict held inside gallery_config, so after the call
that dict has `method`, `returnModelList` and `PageSize` set (overwriting any
previous values) while every other key of it, and every other key of
gallery_config, is unchanged. -/
theorem build_request_url_mutates_only_request_data
    (d grd : List (String × PyVal)) (bs : List PyVal) (u : String) (us : List PyVal)
    (size : PyVal) (api method : String)
    (hbc : dictGet d "breadcrumbs" = some (.list bs))
    (hgrd : dictGet d "galleryRequestData" = some (.dict grd))
    (hurls : collectTruthyUrls bs = .ok (.str u :: us)) :
    ∃ url : String, ∃ grd' : List (String × PyVal),
      build_request_url (.dict d) size api method
        = .ok (url, .dict (dictSet d "galleryRequestData" (.dict grd'))) ∧
      dictGet grd' "method" = some (.str method) ∧
      dictGet grd' "returnModelList" = some (.bool true) ∧
      dictGet grd' "PageSize" = some size ∧
      (∀ k, k ≠ "method" → k ≠ "returnModelList" → k ≠ "PageSize" →
        dictGet grd' k = dictGet grd k) ∧
      (∀ k, k ≠ "galleryRequestData" →
        dictGet (dictSet d "galleryRequestData" (.dict grd')) k = dictGet d k) := by
  refine ⟨_, _, build_request_url_eq d bs u us grd size api method hbc hgrd hurls,
    ?_, ?_, ?_, ?_, ?_⟩
  · rw [dictGet_dictSet_ne _ _ _ _ (by decide), dictGet_dictSet_ne _ _ _ _ (by decide),
      dictGet_dictSet_self]
  · rw [dictGet_dictSet_ne _ _ _ _ (by decide), dictGet_dictSet_self]
  · rw [dictGet_dictSet_self]
  · intro k h1 h2 h3
    rw [dictGet_dictSet_ne _ _ _ _ h3, dictGet_dictSet_ne _ _ _ _ h2,
      dictGet_dictSet_ne _ _ _ _ h1]
  · intro k h
    exact dictGet_dictSet_ne _ _ _ _ h

theorem build_request_url_mutates_only_request_data_witness :
    dictGet [("albumId", PyVal.str "7")] "method" = Option.none ∧
    (match build_request_url
        (.dict [("breadcrumbs", .list [.dict [("url", .str "https://example.com")]]),
                ("galleryRequestData", .dict [("albumId", .str "7")])])
        (.int 0) "/services/api/json/1.4.0/" "rpc.gallery.getalbum" with
     | .ok (_, .dict d') =>
       match dictGet d' "galleryRequestData" with
       | some (.dict grd') => dictGet grd' "method" = some (.str "rpc.gallery.getalbum")
         ∧ dictGet grd' "albumId" = some (.str "7")
       | _ => False
     | _ => False) := by
  obtain ⟨url, grd', hrun, hm, _, _, hframe, _⟩ :=
    build_request_url_mutates_only_request_data
      [("breadcrumbs", .list [.dict [("url", .str "https://example.com")]]),
       ("galleryRequestData", .dict [("albumId", .str "7")])]
      [("albumId", .str "7")]
      [.dict [("url", .str "https://example.com")]]
      "https://example.com" [] (.int 0) "/services/api/json/1.4.0/" "rpc.gallery.getalbum"
      rfl rfl rfl
  refine ⟨rfl, ?_⟩
  rw [hrun]
  simp only [dictGet_dictSet_self]
  exact ⟨hm, by rw [hframe "albumId" (by decide) (by decide) (by decide)]; rfl⟩

/-- C2 counterexample: on a gallery_config whose galleryRequestData is just
("albumId": "7"), the claim says the mapping is unchanged after the call; the
code instead mutates it in place, so afterwards it also carries `method`,
`returnModelList` and `PageSize` entries that the input did not have. -/
theorem build_request_url_mutates_config :
    dictGet [("albumId", PyVal.str "7")] "method" = Option.none ∧
    dictGet [("albumId", PyVal.str "7")] "returnModelList" = Option.none ∧
    dictGet [("albumId", PyVal.str "7")] "PageSize" = Option.none ∧
    (match build_request_url
        (.dict [("breadcrumbs", .list [.dict [("url", .str "https://example.com")]]),
                ("galleryRequestData", .dict [("albumId", .str "7")])])
        (.int 0) "/services/api/json/1.4.0/" "rpc.gallery.getalbum" with
     | .ok (_, .dict d') => dictGet d' "galleryRequestData"
     | _ => Option.none)
      = some (.dict [("albumId", .str "7"), ("method", .str "rpc.gallery.getalbum"),
                     ("returnModelList", .bool true), ("PageSize", .int 0)]) :=
  ⟨rfl, rfl, rfl, rfl⟩

/-- Split a character list at the first occurrence of `sep`. -/
def splitFirst (sep : Char) : List Char → Option (List Char × List Char)
  | [] => Option.none
  | c :: cs =>
    if c = sep then some ([], cs)
    else (splitFirst sep cs).map (fun p => (c :: p.1, p.2))

/-- Observer: the (still percent-encoded) value of query parameter `key` in a
URL: the text after the first `?` is split on `&` and the first component
starting with `key=` is returned without that prefix. -/
def getQueryParam (url : String) (key : String) : Option String :=
  match splitFirst '?' url.data with
  | some p =>
    (pySplitChar '&' p.2).findSome? (fun comp =>
      if (key.data ++ ['=']).isPrefixOf comp then
        some (String.mk (comp.drop (key.length + 1)))
      else Option.none)
  | Option.none => Option.none

theorem toHexDigit_ne (n : Nat) (hn : n < 16) :
    toHexDigit n ≠ '&' ∧ toHexDigit n ≠ '=' := by
  interval_cases n <;> exact ⟨by decide, by decide⟩

theorem encChar_ne_amp_eq (c : Char) : ∀ x ∈ encChar c, x ≠ '&' ∧ x ≠ '=' := by
  intro x hx
  unfold encChar at hx
  by_cases hs : isSafeChar c = true
  · rw [if_pos hs] at hx
    simp at hx
    subst hx
    constructor
    · intro h
      subst h
      exact absurd hs (by decide)
    · intro h
      subst h
      exact absurd hs (by decide)
  · rw [if_neg hs] at hx
    by_cases hsp : (c == ' ') = true
    · rw [if_pos hsp] at hx
      simp at hx
      subst hx
      exact ⟨by decide, by decide⟩
    · rw [if_neg hsp] at hx
      have h256 : c.toNat % 256 < 256 := Nat.mod_lt _ (by omega)
      simp at hx
      rcases hx with h | h | h
      · subst h
        exact ⟨by decide, by decide⟩
      · subst h
        exact toHexDigit_ne _ (Nat.div_lt_of_lt_mul (by omega))
      · subst h
        exact toHexDigit_ne _ (Nat.mod_lt _ (by omega))

theorem quotePlus_ne_amp_eq (cs : List Char) :
    ∀ x ∈ quotePlusChars cs, x ≠ '&' ∧ x ≠ '=' := by
  induction cs with
  | nil => intro x hx; simp [quotePlusChars] at hx
  | cons c cs ih =>
    intro x hx
    simp only [quotePlusChars, List.mem_append] at hx
    rcases hx with hx | hx
    · exact encChar_ne_amp_eq c x hx
    · exact ih x hx

theorem quotePlus_safe_id (cs : List Char) (h : ∀ c ∈ cs, isSafeChar c = true) :
    quotePlusChars cs = cs := by
  induction cs with
  | nil => rfl
  | cons c cs ih =>
    have hc := h c (by simp)
    simp [quotePlusChars, encChar, hc, ih (fun x hx => h x (by simp [hx]))]

theorem natDigitsFuel_safe (fuel : Nat) : ∀ (n : Nat) (acc : List Char),
    (∀ c ∈ acc, isSafeChar c = true) →
    ∀ c ∈ natDigitsFuel fuel n acc, isSafeChar c = true := by
  induction fuel with
  | zero => intro n acc hacc; exact hacc
  | succ fuel ih =>
    intro n acc hacc c hc
    simp only [natDigitsFuel] at hc
    by_cases h10 : n < 10
    · rw [if_pos h10] at hc
      rcases List.mem_cons.mp hc with h | h
      · subst h
        interval_cases n <;> decide
      · exact hacc c h
    · rw [if_neg h10] at hc
      refine ih (n / 10) _ ?_ c hc
      intro x hx
      rcases List.mem_cons.mp hx with h | h
      · subst h
        have hr : n % 10 < 10 := Nat.mod_lt _ (by omega)
        generalize hgen : n % 10 = r at hr ⊢
        interval_cases r <;> decide
      · exact hacc x h

theorem intToStr_safe (n : Int) : ∀ c ∈ (intToStr n).data, isSafeChar c = true := by
  unfold intToStr
  by_cases h : n < 0
  · rw [if_pos h]
    intro c hc
    rcases List.mem_cons.mp hc with h1 | h1
    · subst h1
      decide
    · exact natDigitsFuel_safe _ _ [] (by simp) c h1
  · rw [if_neg h]
    intro c hc
    exact natDigitsFuel_safe _ _ [] (by simp) c hc

theorem splitFirst_append (sep : Char) (a b : List Char) (ha : sep ∉ a) :
    splitFirst sep (a ++ sep :: b) = some (a, b) := by
  induction a with
  | nil => simp [splitFirst]
  | cons c cs ih =>
    have hc : ¬ c = sep := fun h => ha (by simp [h])
    simp [splitFirst, hc, ih (fun h => ha (by simp [h]))]

theorem pySplitChar_no_sep (sep : Char) (x : List Char) (hx : sep ∉ x) :
    pySplitChar sep x = [x] := by
  induction x with
  | nil => rfl
  | cons c cs ih =>
    have hc : ¬ c = sep := fun h => hx (by simp [h])
    simp [pySplitChar, hc, ih (fun h => hx (by simp [h]))]

theorem pySplitChar_append_sep (sep : Char) (x r : List Char) (hx : sep ∉ x) :
    pySplitChar sep (x ++ sep :: r) = x :: pySplitChar sep r := by
  induction x with
  | nil => simp [pySplitChar]
  | cons c cs ih =>
    have hc : ¬ c = sep := fun h => hx (by simp [h])
    rw [List.cons_append, pySplitChar]
    simp only [hc, if_false]
    rw [ih (fun h => hx (by simp [h]))]

theorem pySplitChar_joinSep (sep : Char) (comps : List (List Char))
    (hne : comps ≠ []) (hall : ∀ x ∈ comps, sep ∉ x) :
    pySplitChar sep (joinSep sep comps) = comps := by
  induction comps with
  | nil => exact absurd rfl hne
  | cons x xs ih =>
    cases xs with
    | nil => simpa [joinSep] using pySplitChar_no_sep sep x (hall x (by simp))
    | cons y ys =>
      rw [joinSep, pySplitChar_append_sep sep x _ (hall x (by simp)),
        ih (by simp) (fun z hz => hall z (by simp [hz]))]

theorem isPrefixOf_append_self (l t : List Char) : l.isPrefixOf (l ++ t) = true := by
  induction l with
  | nil => simp [List.isPrefixOf]
  | cons c cs ih => simp [List.isPrefixOf, ih]

theorem prefix_key_eq (p : List Char) (q : List Char) (hp : '=' ∉ p) :
    ∀ (a b : List Char), '=' ∉ a →
      (p ++ '=' :: q) <+: (a ++ '=' :: b) → p = a := by
  induction p with
  | nil =>
    intro a b ha h
    cases a with
    | nil => rfl
    | cons c cs =>
      rw [List.nil_append, List.cons_append, List.cons_prefix_cons] at h
      exact absurd h.1.symm (fun hh => ha (by simp [hh]))
  | cons pc ps ih =>
    intro a b ha h
    cases a with
    | nil =>
      rw [List.cons_append, List.nil_append, List.cons_prefix_cons] at h
      exact absurd h.1 (fun hh => hp (by simp [hh]))
    | cons ac as =>
      rw [List.cons_append, List.cons_append, List.cons_prefix_cons] at h
      obtain ⟨h1, h2⟩ := h
      subst h1
      rw [ih (fun hh => hp (by simp [hh])) as b (fun hh => ha (by simp [hh])) h2]

theorem encPair_no_amp (p : String × PyVal) : '&' ∉ encPair p := by
  intro h
  unfold encPair at h
  rcases List.mem_append.mp h with h | h
  · exact (quotePlus_ne_amp_eq _ '&' h).1 rfl
  · rcases List.mem_cons.mp h with h | h
    · cases h
    · exact (quotePlus_ne_amp_eq _ '&' h).1 rfl

theorem dictSet_ne_nil (d : List (String × PyVal)) (k : String) (v : PyVal) :
    dictSet d k v ≠ [] := by
  cases d with
  | nil => simp [dictSet]
  | cons p ds =>
    obtain ⟨p1, p2⟩ := p
    by_cases h : p1 = k <;> simp [dictSet, h]

theorem findSome_params (ps : List (String × PyVal)) (v : PyVal)
    (hsafe : ∀ p ∈ ps, ∀ c ∈ p.1.data, isSafeChar c = true)
    (hv : dictGet ps "PageSize" = some v) :
    (ps.map encPair).findSome? (fun comp =>
      if ("PageSize".data ++ ['=']).isPrefixOf comp then
        some (String.mk (comp.drop ("PageSize".length + 1)))
      else Option.none)
      = some (String.mk (quotePlusChars (pyStr v).data)) := by
  induction ps with
  | nil => simp [dictGet] at hv
  | cons p ps ih =>
    obtain ⟨k, w⟩ := p
    rw [List.map_cons, List.findSome?_cons]
    by_cases hk : k = "PageSize"
    · subst hk
      rw [dictGet, if_pos rfl] at hv
      cases hv
      have henc : encPair ("PageSize", v)
          = ("PageSize".data ++ ['=']) ++ quotePlusChars (pyStr v).data := by
        unfold encPair
        rw [quotePlus_safe_id "PageSize".data (by decide)]
        simp
      rw [henc, isPrefixOf_append_self,
        List.drop_left' (by decide : ("PageSize".data ++ ['=']).length = "PageSize".length + 1)]
      simp
    · have hks := hsafe (k, w) (by simp)
      have hkeq : '=' ∉ k.data := by
        intro hmem
        have := hks '=' hmem
        exact absurd this (by decide)
      have henc : encPair (k, w) = k.data ++ '=' :: quotePlusChars (pyStr w).data := by
        unfold encPair
        rw [quotePlus_safe_id k.data hks]
      have hpre : ("PageSize".data ++ ['=']).isPrefixOf (encPair (k, w)) = false := by
        rw [henc]
        cases hb : ("PageSize".data ++ ['=']).isPrefixOf (k.data ++ '=' :: quotePlusChars (pyStr w).data) with
        | false => rfl
        | true =>
          have hpr : ("PageSize".data ++ '=' :: [])
              <+: (k.data ++ '=' :: quotePlusChars (pyStr w).data) := by
            have := List.isPrefixOf_iff_prefix.mp hb
            simpa using this
          have := prefix_key_eq "PageSize".data [] (by decide) k.data _ hkeq hpr
          exact absurd (congrArg String.mk this.symm) hk
      rw [hpre]
      simp only [Bool.false_eq_true, if_false]
      rw [dictGet, if_neg hk] at hv
      exact ih (fun q hq => hsafe q (by simp [hq])) hv

theorem build_pageSize_aux (d grd : List (String × PyVal)) (bs : List PyVal)
    (u : String) (us : List PyVal) (size : PyVal)
    (hbc : dictGet d "breadcrumbs" = some (.list bs))
    (hgrd : dictGet d "galleryRequestData" = some (.dict grd))
    (hurls : collectTruthyUrls bs = .ok (.str u :: us))
    (hq : '?' ∉ u.data)
    (hsafe : ∀ p ∈ grd, ∀ c ∈ p.1.data, isSafeChar c = true)
    (hvsafe : ∀ c ∈ (pyStr size).data, isSafeChar c = true) :
    ∃ url gc', build_request_url (.dict d) size = .ok (url, gc') ∧
      getQueryParam url "PageSize" = some (pyStr size) := by
  have hrun := build_request_url_eq d bs u us grd size "/services/api/json/1.4.0/"
    "rpc.gallery.getalbum" hbc hgrd hurls
  refine ⟨_, _, hrun, ?_⟩
  set pd := dictSet (dictSet (dictSet grd "method" (.str "rpc.gallery.getalbum"))
    "returnModelList" (.bool true)) "PageSize" size with hpd
  have hdata : (u ++ "/services/api/json/1.4.0/" ++ "?" ++ String.mk (urlencode pd)).data
      = (u.data ++ "/services/api/json/1.4.0/".data) ++ '?' :: urlencode pd := by
    simp [String.data_append]
  have hnq : '?' ∉ u.data ++ "/services/api/json/1.4.0/".data := by
    intro h
    rcases List.mem_append.mp h with h | h
    · exact hq h
    · exact absurd h (by decide)
  have hsafe' : ∀ p ∈ pd, ∀ c ∈ p.1.data, isSafeChar c = true := by
    intro p hp
    rcases mem_dictSet _ _ _ _ hp with h | h
    · subst h
      intro c hc
      exact (by decide : ∀ c ∈ ("PageSize" : String).data, isSafeChar c = true) c hc
    rcases mem_dictSet _ _ _ _ h with h1 | h1
    · subst h1
      intro c hc
      exact (by decide : ∀ c ∈ ("returnModelList" : String).data, isSafeChar c = true) c hc
    rcases mem_dictSet _ _ _ _ h1 with h2 | h2
    · subst h2
      intro c hc
      exact (by decide : ∀ c ∈ ("method" : String).data, isSafeChar c = true) c hc
    · exact hsafe p h2
  have hsplit : pySplitChar '&' (urlencode pd) = pd.map encPair := by
    refine pySplitChar_joinSep '&' (pd.map encPair) ?_ ?_
    · simp only [ne_eq, List.map_eq_nil_iff]
      rw [hpd]
      exact dictSet_ne_nil _ _ _
    · intro x hx
      obtain ⟨p, hp, hpe⟩ := List.mem_map.mp hx
      rw [← hpe]
      exact encPair_no_amp p
  have hfind := findSome_params pd size hsafe' (dictGet_dictSet_self _ _ _)
  unfold getQueryParam
  rw [hdata, splitFirst_append '?' _ _ hnq]
  show (pySplitChar '&' (urlencode pd)).findSome? _ = _
  rw [hsplit, hfind, quotePlus_safe_id _ hvsafe]

/-- C8: for every gallery_config accepted by build_request_url (with a truthy
breadcrumb url containing no `?` and URL-safe galleryRequestData keys) and
every integer size, the PageSize query parameter of the built URL equals the
size argument; with the argument omitted it equals 0; and the URL built by
request_image_data carries PageSize = Pagination.TotalItems. -/
theorem build_request_url_pageSize_eq_size
    (d grd : List (String × PyVal)) (bs : List PyVal) (u : String) (us : List PyVal)
    (hbc : dictGet d "breadcrumbs" = some (.list bs))
    (hgrd : dictGet d "galleryRequestData" = some (.dict grd))
    (hurls : collectTruthyUrls bs = .ok (.str u :: us))
    (hq : '?' ∉ u.data)
    (hsafe : ∀ p ∈ grd, ∀ c ∈ p.1.data, isSafeChar c = true) :
    (∀ n : Int, ∃ url gc', build_request_url (.dict d) (.int n) = .ok (url, gc') ∧
        getQueryParam url "PageSize" = some (intToStr n)) ∧
    (∃ url gc', build_request_url (.dict d) = .ok (url, gc') ∧
        getQueryParam url "PageSize" = some "0") ∧
    (∀ t : Int, ∀ ad pg : List (String × PyVal),
      dictGet ad "Pagination" = some (.dict pg) →
      dictGet pg "TotalItems" = some (.int t) →
      ∃ url gc', request_image_data_url (.dict d) (.dict ad) = .ok (url, gc') ∧
        getQueryParam url "PageSize" = some (intToStr t)) := by
  have hint : ∀ n : Int, ∃ url gc',
      build_request_url (.dict d) (.int n) = .ok (url, gc') ∧
      getQueryParam url "PageSize" = some (intToStr n) := by
    intro n
    exact build_pageSize_aux d grd bs u us (.int n) hbc hgrd hurls hq hsafe
      (intToStr_safe n)
  refine ⟨hint, ?_, ?_⟩
  · obtain ⟨url, gc', hrun, hval⟩ := hint 0
    exact ⟨url, gc', hrun, hval⟩
  · intro t ad pg hpag htot
    obtain ⟨url, gc', hrun, hval⟩ := hint t
    refine ⟨url, gc', ?_, hval⟩
    simp [request_image_data_url, containsKey, hpag, htot, pyGetItem, ebind_ok, hrun]

theorem build_request_url_pageSize_eq_size_witness :
    (match build_request_url
        (.dict [("breadcrumbs", .list [.dict [("url", .str "https://example.com")]]),
                ("galleryRequestData", .dict [("albumId", .str "7")])])
        (.int 25) with
     | .ok (url, _) => getQueryParam url "PageSize"
     | .error _ => Option.none) = some "25" := by
  obtain ⟨url, gc', hrun, hval⟩ := (build_request_url_pageSize_eq_size
      [("breadcrumbs", .list [.dict [("url", .str "https://example.com")]]),
       ("galleryRequestData", .dict [("albumId", .str "7")])]
      [("albumId", .str "7")]
      [.dict [("url", .str "https://example.com")]]
      "https://example.com" []
      rfl rfl rfl (by decide) (by decide)).1 25
  rw [hrun]
  exact hval

/-! ## C3 and C4 -/

theorem dropWhile_all_append (p : Char → Bool) (a : List Char) (c : Char) (b : List Char)
    (ha : ∀ x ∈ a, p x = true) (hc : p c = false) :
    (a ++ (c :: b)).dropWhile p = c :: b := by
  induction a with
  | nil => simp [List.dropWhile_cons, hc]
  | cons x xs ih =>
    simp [List.dropWhile_cons, ha x (by simp), ih (fun y hy => ha y (by simp [hy]))]

theorem wsThenSemi_true (ws : List Char) (t : List Char)
    (h : ∀ c ∈ ws, pyIsSpace c = true) : wsThenSemi (ws ++ (';' :: t)) = true := by
  induction ws with
  | nil => rfl
  | cons c cs ih =>
    have hc := h c (by simp)
    have hcsemi : ¬ c = ';' := by
      intro hh
      rw [hh] at hc
      exact absurd hc (by decide)
    simp [wsThenSemi, hcsemi, hc, ih (fun y hy => h y (by simp [hy]))]

theorem wsThenSemi_false_of_no_semi (a : List Char) (t : List Char) (ha : ';' ∉ a) :
    wsThenSemi (a ++ ('}' :: t)) = false := by
  induction a with
  | nil => rfl
  | cons c cs ih =>
    have hc : ¬ c = ';' := fun h => ha (by simp [h])
    by_cases hs : pyIsSpace c = true
    · simp [wsThenSemi, hc, hs, ih (fun h => ha (by simp [h]))]
    · simp [wsThenSemi, hc, hs]

theorem grabBody_eq (interior ws3 suffix : List Char)
    (hint : ';' ∉ interior) (h3 : ∀ c ∈ ws3, pyIsSpace c = true) :
    grabBody (interior ++ ('}' :: (ws3 ++ (';' :: suffix)))) = some interior := by
  induction interior with
  | nil => simp [grabBody, wsThenSemi_true ws3 suffix h3]
  | cons c cs ih =>
    have ih' := ih (fun h => hint (by simp [h]))
    by_cases hcb : c = '}'
    · subst hcb
      have hws : wsThenSemi (cs ++ ('}' :: (ws3 ++ (';' :: suffix)))) = false :=
        wsThenSemi_false_of_no_semi cs _ (fun h => hint (by simp [h]))
      rw [List.cons_append, grabBody]
      simp [List.append_eq, hws, ih']
    · rw [List.cons_append, grabBody]
      simp [List.append_eq, hcb, ih']

theorem tryMatchAfter_eq (ws1 ws2 ws3 interior suffix : List Char)
    (h1 : ∀ c ∈ ws1, pyIsSpace c = true) (h2 : ∀ c ∈ ws2, pyIsSpace c = true)
    (h3 : ∀ c ∈ ws3, pyIsSpace c = true) (hint : ';' ∉ interior) :
    tryMatchAfter (ws1 ++ ('=' :: (ws2 ++ ('{' :: (interior ++ ('}' :: (ws3 ++ (';' :: suffix))))))))
      = some ('{' :: (interior ++ ['}'])) := by
  have e1 := dropWhile_all_append pyIsSpace ws1 '='
    (ws2 ++ ('{' :: (interior ++ ('}' :: (ws3 ++ (';' :: suffix)))))) h1 (by decide)
  have e2 := dropWhile_all_append pyIsSpace ws2 '{'
    (interior ++ ('}' :: (ws3 ++ (';' :: suffix)))) h2 (by decide)
  have e3 := grabBody_eq interior ws3 suffix hint h3
  unfold tryMatchAfter
  simp only [e1, e2, e3]
  rfl

theorem isSubstring_of_prefix (needle l : List Char)
    (h : needle.isPrefixOf l = true) : isSubstring needle l = true := by
  cases l with
  | nil =>
    cases needle with
    | nil => rfl
    | cons c cs => simp [List.isPrefixOf] at h
  | cons c cs => simp [isSubstring, h]

theorem searchGalleryConfig_start (rest g : List Char)
    (h : tryMatchAfter rest = some g) :
    searchGalleryConfig (markerChars ++ rest) = some g := by
  have hcons : markerChars ++ rest = 'g' :: ("alleryConfig".data ++ rest) := rfl
  have hpre : markerChars.isPrefixOf ('g' :: ("alleryConfig".data ++ rest)) = true :=
    isPrefixOf_append_self markerChars rest
  have hdrop : ('g' :: ("alleryConfig".data ++ rest)).drop markerChars.length = rest :=
    List.drop_left markerChars rest
  rw [hcons, searchGalleryConfig, hpre, hdrop, h]
  rfl

theorem goLines_skip (pre : List (List Char)) (l : List Char) (post : List (List Char))
    (hpre : ∀ x ∈ pre, isSubstring markerChars x = false) :
    goLines (pre ++ l :: post) = goLines (l :: post) := by
  induction pre with
  | nil => rfl
  | cons x xs ih =>
    simp [goLines, hpre x (by simp), ih (fun y hy => hpre y (by simp [hy]))]

theorem goLines_no_marker (lines : List (List Char))
    (h : ∀ l ∈ lines, isSubstring markerChars l = false) :
    goLines lines
      = .error (.valueError "HTML did not include any gallery configuration.") := by
  induction lines with
  | nil => rfl
  | cons x xs ih =>
    simp [goLines, h x (by simp), ih (fun y hy => h y (by simp [hy]))]

/-- C4: for an HTML string whose first marker-containing line has the
single-line form `galleryConfig = {...};` (arbitrary whitespace around `=`
and before the `;`, arbitrary text after it) where the braced text is valid
JSON with no `;` before its closing brace, the extractor returns exactly the
parse of that embedded JSON text. -/
theorem get_gallery_config_extracts_embedded_json
    (html : String) (pre post : List (List Char))
    (ws1 ws2 ws3 interior suffix : List Char) (cfg : PyVal)
    (hsplit : pySplitChar '\n' html.data
      = pre ++ (markerChars
          ++ (ws1 ++ ('=' :: (ws2 ++ ('{' :: (interior ++ ('}' :: (ws3 ++ (';' :: suffix)))))))))
        :: post)
    (hpre : ∀ x ∈ pre, isSubstring markerChars x = false)
    (h1 : ∀ c ∈ ws1, pyIsSpace c = true) (h2 : ∀ c ∈ ws2, pyIsSpace c = true)
    (h3 : ∀ c ∈ ws3, pyIsSpace c = true)
    (hint : ';' ∉ interior)
    (hjson : pyJsonLoads ('{' :: (interior ++ ['}'])) = .ok cfg) :
    get_gallery_config_from_html (.str html) = .ok cfg := by
  have hsearch := searchGalleryConfig_start
    (ws1 ++ ('=' :: (ws2 ++ ('{' :: (interior ++ ('}' :: (ws3 ++ (';' :: suffix))))))))
    ('{' :: (interior ++ ['}']))
    (tryMatchAfter_eq ws1 ws2 ws3 interior suffix h1 h2 h3 hint)
  have hsub : isSubstring markerChars
      (markerChars
        ++ (ws1 ++ ('=' :: (ws2 ++ ('{' :: (interior ++ ('}' :: (ws3 ++ (';' :: suffix)))))))))
      = true :=
    isSubstring_of_prefix _ _ (isPrefixOf_append_self _ _)
  show goLines (pySplitChar '\n' html.data) = .ok cfg
  rw [hsplit, goLines_skip pre _ post hpre, goLines, hsub]
  simp only [if_true, hsearch, hjson]

theorem get_gallery_config_extracts_embedded_json_witness :
    get_gallery_config_from_html
      (.str "<p>\ngalleryConfig = \x7b\"a\": 1\x7d;tail\n<q>")
      = .ok (.dict [("a", .int 1)]) :=
  get_gallery_config_extracts_embedded_json
    "<p>\ngalleryConfig = \x7b\"a\": 1\x7d;tail\n<q>"
    ["<p>".data] ["<q>".data]
    [' '] [' '] [] "\"a\": 1".data "tail".data
    (.dict [("a", .int 1)])
    (by decide) (by decide) (by decide) (by decide) (by decide) (by decide) rfl

/-- C3 (amended): get_gallery_config_from_html raises TypeError on every
non-string input; on string input it raises ValueError when no line contains
the marker `galleryConfig` and when JSON parsing of the matched text fails
(the model JSON parser only fails with ValueError), but when the first
marker-containing line does NOT match the extraction pattern, the failure is
an AttributeError (from `None.group(1)`), not the ValueError the claim
states. -/
theorem get_gallery_config_error_taxonomy :
    (∀ v : PyVal, isStrPy v = false →
      get_gallery_config_from_html v
        = .error (.typeError "Type of html is not a string.")) ∧
    (∀ html : String,
      (∀ l ∈ pySplitChar '\n' html.data, isSubstring markerChars l = false) →
      get_gallery_config_from_html (.str html)
        = .error (.valueError "HTML did not include any gallery configuration.")) ∧
    (∀ html : String, ∀ pre : List (List Char), ∀ line : List Char,
      ∀ post : List (List Char),
      pySplitChar '\n' html.data = pre ++ line :: post →
      (∀ l ∈ pre, isSubstring markerChars l = false) →
      isSubstring markerChars line = true →
      searchGalleryConfig line = Option.none →
      get_gallery_config_from_html (.str html)
        = .error (.attributeError noneGroupMsg)) ∧
    (∀ html : String, ∀ pre : List (List Char), ∀ line : List Char,
      ∀ post : List (List Char), ∀ g : List Char,
      pySplitChar '\n' html.data = pre ++ line :: post →
      (∀ l ∈ pre, isSubstring markerChars l = false) →
      isSubstring markerChars line = true →
      searchGalleryConfig line = some g →
      get_gallery_config_from_html (.str html) = pyJsonLoads g) ∧
    (∀ cs : List Char, ∀ e : PyErr, pyJsonLoads cs = .error e →
      ∃ m : String, e = .valueError m) := by
  refine ⟨?_, ?_, ?_, ?_, ?_⟩
  · intro v hv
    cases v <;> first | rfl | simp [isStrPy] at hv
  · intro html h
    show goLines (pySplitChar '\n' html.data) = _
    exact goLines_no_marker _ h
  · intro html pre line post hsplit hpre hline hsearch
    show goLines (pySplitChar '\n' html.data) = _
    rw [hsplit, goLines_skip pre _ post hpre, goLines, hline]
    simp only [if_true, hsearch]
  · intro html pre line post g hsplit hpre hline hsearch
    show goLines (pySplitChar '\n' html.data) = _
    rw [hsplit, goLines_skip pre _ post hpre, goLines, hline]
    simp only [if_true, hsearch]
  · intro cs e he
    unfold pyJsonLoads at he
    cases hj : jValue (cs.length + 1) cs with
    | none =>
      rw [hj] at he
      cases he
      exact ⟨_, rfl⟩
    | some p =>
      rw [hj] at he
      by_cases hr : p.2.dropWhile jIsWs = []
      · simp [hr] at he
      · simp [hr] at he
        exact ⟨_, he.symm⟩

theorem get_gallery_config_error_taxonomy_witness :
    get_gallery_config_from_html (.int 3)
      = .error (.typeError "Type of html is not a string.") ∧
    get_gallery_config_from_html (.str "no marker here")
      = .error (.valueError "HTML did not include any gallery configuration.") ∧
    get_gallery_config_from_html (.str "x\ngalleryConfig with no assignment")
      = .error (.attributeError noneGroupMsg) ∧
    get_gallery_config_from_html (.str "galleryConfig = \x7bbad\x7d;")
      = .error (.valueError "No JSON object could be decoded") := by
  obtain ⟨p1, p2, p3, p4, p5⟩ := get_gallery_config_error_taxonomy
  refine ⟨p1 _ rfl, p2 _ (by decide), ?_, ?_⟩
  · exact p3 "x\ngalleryConfig with no assignment"
      ["x".data] "galleryConfig with no assignment".data []
      (by decide) (by decide) (by decide) (by decide)
  · exact (p4 "galleryConfig = \x7bbad\x7d;"
      [] "galleryConfig = \x7bbad\x7d;".data [] "\x7bbad\x7d".data
      (by decide) (by decide) (by decide) (by decide)).trans rfl

/-- C3 counterexample: on the string input `galleryConfig` (the marker with no
assignment), the claim demands a ValueError; the code calls `.group(1)` on the
failed `re.search` result `None` and dies with AttributeError instead. -/
theorem gallery_config_pattern_mismatch_not_valueError :
    get_gallery_config_from_html (.str "galleryConfig")
      = .error (.attributeError noneGroupMsg) ∧
    isValueErrorResult (get_gallery_config_from_html (.str "galleryConfig")) = false :=
  ⟨rfl, rfl⟩
